import Mathlib

/-!
# robinhub_v1: the upload and summarize handlers of `main.go`

A shallow embedding of the two HTTP handlers.  The handlers talk to three
collaborators that live outside the repository: the Go JSON library, the
MongoDB driver and the Ollama HTTP endpoint.  The JSON library is modelled on
JSON values (its behaviour for the two target types the handlers decode into),
the store and the endpoint are an environment `Env` of outcomes, and every
call a handler makes to them is recorded, in order, in a trace of `Event`s.
Deferred calls are kept on a stack and run last-in first-out at each return.
Go strings are byte sequences; a JSON string is text, so bytes turn into text
where a Go string is marshalled and text turns into bytes where a JSON string
is stored in a struct field.
-/

set_option exponentiation.threshold 4096

namespace RobinHub

/-! ## JSON values -/

/-- A JSON value as the Go JSON library sees it.  A number keeps the text of
its literal and its magnitude, `mantissa * 10 ^ exp10`: the digits of the
literal without the point, and its exponent less the count of fraction
digits (`1e999` is `1`, `999`; `2.5` is `25`, `-1`). -/
inductive JSON where
  | null : JSON
  | bool (b : Bool) : JSON
  | num (lit : String) (mantissa : Nat) (exp10 : Int) : JSON
  | str (s : String) : JSON
  | arr (items : List JSON) : JSON
  | obj (fields : List (String × JSON)) : JSON

/-- The word the JSON library uses for a value in its type errors. -/
def JSON.kind : JSON → String
  | .null => "null"
  | .bool _ => "bool"
  | .num _ _ _ => "number"
  | .str _ => "string"
  | .arr _ => "array"
  | .obj _ => "object"

/-- Outcome of reading one JSON value from a byte stream: the value, or the
message of the read or grammar error (the library counts nesting deeper than
its limit as a grammar error). -/
abbrev Parsed := Except String JSON

/-! ## Constants of `main.go` -/

/-- The constant `modelName`. -/
def modelName : String := "deepseek-r1:8b"

/-- The constant `ollamaURL`. -/
def ollamaURL : String := "http://localhost:11434/api/generate"

/-- The constant `mongoDBURL`. -/
def mongoDBURL : String := "mongodb://localhost:27017"

/-! ## Data model -/

/-- A Go string: a sequence of bytes (each below 256), not necessarily valid
UTF-8. -/
abbrev GoString := List Nat

/-- The UTF-8 encoding of one code point. -/
def encodeRune (c : Nat) : List Nat :=
  if c < 0x80 then [c]
  else if c < 0x800 then [0xC0 + c / 64, 0x80 + c % 64]
  else if c < 0x10000 then [0xE0 + c / 4096, 0x80 + c / 64 % 64, 0x80 + c % 64]
  else [0xF0 + c / 262144, 0x80 + c / 4096 % 64, 0x80 + c / 64 % 64, 0x80 + c % 64]

/-- The bytes of a text: the Go string a source literal or a decoded JSON
string denotes. -/
def encodeUTF8 (s : String) : GoString :=
  s.toList.flatMap (fun c => encodeRune c.toNat)

/-- The constant `utf8.RuneError`, U+FFFD. -/
def RuneError : Nat := 0xFFFD

/-- The library function `utf8.DecodeRune`: the first code point of a byte
sequence and its width, or `RuneError` and width 1 when the bytes do not start
a valid encoding.  Bit masks are written as remainders. -/
def DecodeRune (p : List Nat) : Nat × Nat :=
  match p with
  | [] => (RuneError, 0)
  | p0 :: t0 =>
    if p0 < 0x80 then (p0, 1)
    else if p0 < 0xC2 ∨ 0xF4 < p0 then (RuneError, 1)
    else
      let sz := if p0 < 0xE0 then 2 else if p0 < 0xF0 then 3 else 4
      let lo := if p0 = 0xE0 then 0xA0 else if p0 = 0xF0 then 0x90 else 0x80
      let hi := if p0 = 0xED then 0x9F else if p0 = 0xF4 then 0x8F else 0xBF
      if t0.length + 1 < sz then (RuneError, 1)
      else
        match t0 with
        | [] => (RuneError, 1)
        | b1 :: t1 =>
          if b1 < lo ∨ hi < b1 then (RuneError, 1)
          else if sz ≤ 2 then (p0 % 32 * 64 + b1 % 64, 2)
          else
            match t1 with
            | [] => (RuneError, 1)
            | b2 :: t2 =>
              if b2 < 0x80 ∨ 0xBF < b2 then (RuneError, 1)
              else if sz ≤ 3 then (p0 % 16 * 4096 + b1 % 64 * 64 + b2 % 64, 3)
              else
                match t2 with
                | [] => (RuneError, 1)
                | b3 :: _ =>
                  if b3 < 0x80 ∨ 0xBF < b3 then (RuneError, 1)
                  else (p0 % 8 * 262144 + b1 % 64 * 4096 + b2 % 64 * 64 + b3 % 64, 4)

/-- The loop of the JSON encoder over a Go string: decode a code point, emit
it (U+FFFD for a byte that starts no valid encoding), move on by its width.
The first argument bounds the number of rounds. -/
def toValidUTF8Loop : Nat → List Nat → List Char
  | 0, _ => []
  | fuel + 1, p =>
    match p with
    | [] => []
    | p0 :: t0 =>
      Char.ofNat (DecodeRune (p0 :: t0)).1 ::
        toValidUTF8Loop fuel (t0.drop ((DecodeRune (p0 :: t0)).2 - 1))

/-- The text `json.Marshal` writes for a Go string: its bytes read as UTF-8,
each invalid byte replaced by U+FFFD. -/
def toValidUTF8 (p : GoString) : String :=
  String.mk (toValidUTF8Loop p.length p)

/-- The struct `Document`. -/
structure Document where
  Title : GoString
  Content : GoString
deriving DecidableEq, Repr

/-- The zero value of `Document` (`var doc Document`). -/
def Document.zero : Document := ⟨[], []⟩

/-- An HTTP header map: canonical key to list of values. -/
structure Header where
  entries : List (String × List String)

/-- The method `Header.Get`: first value stored under the key, or the empty
string. -/
def Header.Get (h : Header) (key : String) : String :=
  match h.entries.lookup key with
  | some (v :: _) => v
  | _ => ""

/-- The method `Header.Del`. -/
def Header.Del (h : Header) (key : String) : Header :=
  ⟨h.entries.filter (fun kv => kv.1 != key)⟩

/-- The method `Header.Set`: replaces whatever is stored under the key. -/
def Header.Set (h : Header) (key value : String) : Header :=
  ⟨(h.Del key).entries ++ [(key, [value])]⟩

/-- The parts of `*http.Request` the handlers read.  `Body` is what a JSON
decoder gets from the body stream. -/
structure Request where
  Method : String
  Header : Header
  Body : Parsed

/-- One piece of output written to the response body. -/
inductive Chunk where
  | text (s : String) : Chunk
  | json (v : JSON) : Chunk

/-- The state of an `http.ResponseWriter`: headers, the status line once it
is written, and the body written so far. -/
structure ResponseWriter where
  header : Header
  status : Option Nat
  body : List Chunk

/-- A fresh response writer. -/
def ResponseWriter.new : ResponseWriter := ⟨⟨[]⟩, none, []⟩

/-- The method `WriteHeader`: only the first call takes effect. -/
def ResponseWriter.WriteHeader (w : ResponseWriter) (code : Nat) : ResponseWriter :=
  match w.status with
  | none => { w with status := some code }
  | some _ => w

/-- The method `Write`: writes status 200 first when no status was written. -/
def ResponseWriter.Write (w : ResponseWriter) (c : Chunk) : ResponseWriter :=
  let w1 := w.WriteHeader 200
  { w1 with body := w1.body ++ [c] }

/-- The status the client receives: 200 when the handler wrote none. -/
def ResponseWriter.StatusCode (w : ResponseWriter) : Nat :=
  w.status.getD 200

/-- The library function `http.Error`. -/
def Error (w : ResponseWriter) (error : String) (code : Nat) : ResponseWriter :=
  let h := w.header.Del "Content-Length"
  let h := h.Set "Content-Type" "text/plain; charset=utf-8"
  let h := h.Set "X-Content-Type-Options" "nosniff"
  let w := { w with header := h }
  let w := w.WriteHeader code
  w.Write (.text (error ++ "\n"))

/-! ## The collaborators -/

/-- A call a handler makes to the store, to the inference endpoint, or to
release a resource. -/
inductive Event where
  | connect (uri : String) : Event
  | disconnect : Event
  | insertOne (db coll : String) (doc : Document) : Event
  | findOne (db coll : String) : Event
  | post (url contentType : String) (payload : JSON) : Event
  | closeBody : Event
  | cancel : Event

/-- How the store and the inference endpoint answer.  `InsertOne` yields the
hex form of the generated object id; `Post` yields the response body as the
JSON library reads it. -/
structure Env where
  Connect : String → Except String Unit
  InsertOne : String → String → Document → Except String String
  FindOne : String → String → Except String Document
  Post : String → String → JSON → Except String Parsed

/-- A handler run: the response written and the calls made, in order. -/
structure Exec where
  w : ResponseWriter
  trace : List Event

/-! ## The JSON library on the handlers' target types -/

/-- Decoder state while filling a `Document`: the struct and the first type
error met. -/
structure DecodeState where
  doc : Document
  savedError : Option String

/-- Keeps the first error only. -/
def DecodeState.saveError (st : DecodeState) (msg : String) : DecodeState :=
  match st.savedError with
  | none => { st with savedError := some msg }
  | some _ => st

/-- Message of a type error on a field of `Document`. -/
def fieldTypeError (v : JSON) (field : String) : String :=
  "json: cannot unmarshal " ++ v.kind ++ " into Go struct field Document." ++ field ++
    " of type string"

/-- A member name with its ASCII capitals lowered.  The library folds names
by Unicode simple case folding; on the letters of `Title` and `Content` that
is the same as lowering ASCII capitals. -/
def foldName (key : String) : List Char :=
  key.toList.map Char.toLower

/-- Stores one member of a JSON object into a `Document`.  The struct has no
json tags, so the member names are `Title` and `Content`, matched without
regard to letter case; other members are skipped.  A string is stored, null
leaves the field alone, any other value is a type error. -/
def storeField (st : DecodeState) (key : String) (v : JSON) : DecodeState :=
  if foldName key = "title".toList then
    match v with
    | .str s => { st with doc := { st.doc with Title := encodeUTF8 s } }
    | .null => st
    | other => st.saveError (fieldTypeError other "Title")
  else if foldName key = "content".toList then
    match v with
    | .str s => { st with doc := { st.doc with Content := encodeUTF8 s } }
    | .null => st
    | other => st.saveError (fieldTypeError other "Content")
  else st

/-- The call `json.NewDecoder(r.Body).Decode(&doc)` on a zero `Document`. -/
def decodeDocument (body : Parsed) : Except String Document :=
  match body with
  | .error err => .error err
  | .ok .null => .ok Document.zero
  | .ok (.obj fields) =>
    let st := fields.foldl (fun st kv => storeField st kv.1 kv.2) ⟨Document.zero, none⟩
    match st.savedError with
    | some err => .error err
    | none => .ok st.doc
  | .ok v => .error ("json: cannot unmarshal " ++ v.kind ++ " into Go value of type main.Document")

/-- Whether a number of the given magnitude is too large for a float64: the
library function `strconv.ParseFloat` reports a range error when the value
rounds to infinity, that is from `2 ^ 1024 - 2 ^ 970` on (half a unit in the
last place above the largest float64). -/
def overflowsFloat64 (mantissa : Nat) (exp10 : Int) : Bool :=
  match exp10 with
  | .ofNat k => decide (2 ^ 1024 - 2 ^ 970 ≤ mantissa * 10 ^ k)
  | .negSucc k => decide ((2 ^ 1024 - 2 ^ 970) * 10 ^ (k + 1) ≤ mantissa)

mutual
/-- Decoding a value into `interface {}` turns every number into a float64;
the result is the literal of the first number, in document order, that does
not fit, if there is one. -/
def JSON.rangeError : JSON → Option String
  | .num lit m e => if overflowsFloat64 m e then some lit else none
  | .arr items => rangeErrorItems items
  | .obj fields => rangeErrorFields fields
  | _ => none
/-- The first range error among the elements of an array. -/
def rangeErrorItems : List JSON → Option String
  | [] => none
  | v :: rest =>
    match v.rangeError with
    | some lit => some lit
    | none => rangeErrorItems rest
/-- The first range error among the members of an object. -/
def rangeErrorFields : List (String × JSON) → Option String
  | [] => none
  | (_, v) :: rest =>
    match v.rangeError with
    | some lit => some lit
    | none => rangeErrorFields rest
end

/-- The call `json.Unmarshal(body, &ollamaResp)` on a nil map: an object fills
the map, unless one of its numbers does not fit a float64; null leaves the map
nil (empty); any other value is a type error. -/
def unmarshalMap (body : Parsed) : Except String (List (String × JSON)) :=
  match body with
  | .error err => .error err
  | .ok .null => .ok []
  | .ok (.obj fields) =>
    match rangeErrorFields fields with
    | some lit =>
      .error ("json: cannot unmarshal number " ++ lit ++ " into Go value of type float64")
    | none => .ok fields
  | .ok v =>
    .error ("json: cannot unmarshal " ++ v.kind ++ " into Go value of type map[string]interface \x7b\x7d")

/-- Map index `m[key]`: a later member of the object overwrote an earlier one
with the same name. -/
def mapIndex (m : List (String × JSON)) (key : String) : Option JSON :=
  m.reverse.lookup key

/-- The type assertion `m[key].(string)`. -/
def assertString (v : Option JSON) : Option String :=
  match v with
  | some (.str s) => some s
  | _ => none

/-- The library function `fmt.Sprintf` for formats whose only verb is `%s`
(bytes 37, 115) and string operands: the operand's bytes replace the verb,
every other byte of the format is copied. -/
def Sprintf : List Nat → List GoString → GoString
  | [], _ => []
  | 37 :: 115 :: rest, a :: args => a ++ Sprintf rest args
  | 37 :: 115 :: rest, [] => encodeUTF8 "%!s(MISSING)" ++ Sprintf rest []
  | c :: rest, args => c :: Sprintf rest args

/-! ## The handlers -/

/-- The handler `uploadHandler`. -/
def uploadHandler (env : Env) (r : Request) : Exec :=
  let w := ResponseWriter.new
  if r.Method ≠ "POST" then
    ⟨Error w "仅支持POST方法" 405, []⟩
  else if r.Header.Get "Content-Type" ≠ "application/json" then
    ⟨Error w "仅支持JSON格式" 415, []⟩
  else
    match decodeDocument r.Body with
    | .error err => ⟨Error w ("请求体解析失败: " ++ err) 400, []⟩
    | .ok doc =>
      if doc.Title = [] ∨ doc.Content = [] then
        ⟨Error w "标题和内容不能为空" 400, []⟩
      else
        let deferred := [Event.cancel]
        let trace := [Event.connect "mongodb://localhost:27017"]
        match env.Connect "mongodb://localhost:27017" with
        | .error err => ⟨Error w ("数据库连接失败: " ++ err) 500, trace ++ deferred⟩
        | .ok _ =>
          let deferred := Event.disconnect :: deferred
          let trace := trace ++ [Event.insertOne "mydb" "documents" doc]
          match env.InsertOne "mydb" "documents" doc with
          | .error err => ⟨Error w ("数据插入失败: " ++ err) 500, trace ++ deferred⟩
          | .ok insertedID =>
            let w := { w with header := w.header.Set "Content-Type" "application/json" }
            let w := w.Write (.json (.obj [("id", .str insertedID), ("message", .str "文档创建成功")]))
            ⟨w, trace ++ deferred⟩

/-- The payload `ollamaReq` as `json.Marshal` renders the map: keys sorted,
the prompt (a Go string) written as valid UTF-8. -/
def ollamaReq (doc : Document) : JSON :=
  .obj [("model", .str modelName),
        ("prompt", .str (toValidUTF8
          (Sprintf (encodeUTF8 "请总结以下内容：\n标题：%s\n内容：%s") [doc.Title, doc.Content]))),
        ("stream", .bool false)]

/-- The handler `summaryHandler`.  It never reads the request. -/
def summaryHandler (env : Env) (_r : Request) : Exec :=
  let w := ResponseWriter.new
  let deferred := [Event.cancel]
  let trace := [Event.connect mongoDBURL]
  match env.Connect mongoDBURL with
  | .error err => ⟨Error w ("数据库连接失败: " ++ err) 500, trace ++ deferred⟩
  | .ok _ =>
    let deferred := Event.disconnect :: deferred
    let trace := trace ++ [Event.findOne "mydb" "documents"]
    match env.FindOne "mydb" "documents" with
    | .error err => ⟨Error w ("文档查询失败: " ++ err) 500, trace ++ deferred⟩
    | .ok doc =>
      let jsonData := ollamaReq doc
      let trace := trace ++
        [Event.post "http://localhost:11434/api/generate" "application/json" jsonData]
      match env.Post "http://localhost:11434/api/generate" "application/json" jsonData with
      | .error err => ⟨Error w ("AI服务调用失败: " ++ err) 500, trace ++ deferred⟩
      | .ok body =>
        let deferred := Event.closeBody :: deferred
        match unmarshalMap body with
        | .error err => ⟨Error w ("AI响应解析失败: " ++ err) 500, trace ++ deferred⟩
        | .ok ollamaResp =>
          match assertString (mapIndex ollamaResp "response") with
          | none => ⟨Error w "无效的AI响应格式" 500, trace ++ deferred⟩
          | some summary =>
            let w := { w with header := w.header.Set "Content-Type" "text/plain; charset=utf-8" }
            let w := w.Write (.text summary)
            ⟨w, trace ++ deferred⟩

/-! ## Reading a trace -/

/-- The documents a run inserted, in order. -/
def insertedDocs : List Event → List Document
  | [] => []
  | .insertOne _ _ doc :: t => doc :: insertedDocs t
  | _ :: t => insertedDocs t

/-- The requests a run sent out: address, content type and payload. -/
def postedRequests : List Event → List (String × String × JSON)
  | [] => []
  | .post url ct payload :: t => (url, ct, payload) :: postedRequests t
  | _ :: t => postedRequests t

/-- Calls on the store: connect, insert, find and disconnect. -/
def Event.isStoreOp : Event → Bool
  | .connect _ => true
  | .disconnect => true
  | .insertOne _ _ _ => true
  | .findOne _ _ => true
  | _ => false

/-- The call `client.Disconnect`. -/
def Event.isDisconnect : Event → Bool
  | .disconnect => true
  | _ => false

/-- The call `resp.Body.Close`. -/
def Event.isCloseBody : Event → Bool
  | .closeBody => true
  | _ => false

/-- The call `http.Post`. -/
def Event.isPost : Event → Bool
  | .post _ _ _ => true
  | _ => false

/-! ## Sample inputs -/

/-- A store and endpoint where every call succeeds: inserts get the id
`65f0c0ffee65f0c0ffee0001`, the store holds the document `A`/`B`, and the
endpoint answers the way Ollama does, with `Summary of A` under `response`. -/
def sampleEnv : Env where
  Connect := fun _ => .ok ()
  InsertOne := fun _ _ _ => .ok "65f0c0ffee65f0c0ffee0001"
  FindOne := fun _ _ => .ok ⟨encodeUTF8 "A", encodeUTF8 "B"⟩
  Post := fun _ _ _ => .ok (.ok (.obj [("model", .str "deepseek-r1:8b"),
    ("response", .str "Summary of A"), ("done", .bool true),
    ("total_duration", .num "5043500667" 5043500667 0)]))

/-- As `sampleEnv`, but the endpoint's answer carries the number `1e999`
beside its `response`. -/
def overflowEnv : Env :=
  { sampleEnv with
    Post := fun _ _ _ => .ok (.ok (.obj [("response", .str "X"), ("n", .num "1e999" 1 999)])) }

/-- As `sampleEnv`, but the endpoint's answer carries the number `1e999`
inside an array inside an object. -/
def nestedOverflowEnv : Env :=
  { sampleEnv with
    Post := fun _ _ _ => .ok (.ok (.obj [("response", .str "X"),
      ("meta", .obj [("context", .arr [.num "7" 7 0, .num "1e999" 1 999])])])) }

/-- As `sampleEnv`, but the stored title is the bytes `61 FF 62`, which are
not valid UTF-8. -/
def invalidTitleEnv : Env :=
  { sampleEnv with FindOne := fun _ _ => .ok ⟨[0x61, 0xFF, 0x62], encodeUTF8 "B"⟩ }

/-- The request of the scenario: POST, JSON content type, title `A`, content
`B`. -/
def sampleUpload : Request where
  Method := "POST"
  Header := ⟨[("Content-Type", ["application/json"])]⟩
  Body := .ok (.obj [("title", .str "A"), ("content", .str "B")])

/-- A GET request whose body has an empty title. -/
def getEmptyTitle : Request where
  Method := "GET"
  Header := ⟨[("Content-Type", ["application/json"])]⟩
  Body := .ok (.obj [("title", .str ""), ("content", .str "x")])

/-- A POST request with the JSON content type whose body has no title. -/
def postNoTitle : Request where
  Method := "POST"
  Header := ⟨[("Content-Type", ["application/json"])]⟩
  Body := .ok (.obj [("content", .str "x")])

/-- A GET request that declares plain text. -/
def getPlainText : Request where
  Method := "GET"
  Header := ⟨[("Content-Type", ["text/plain"])]⟩
  Body := .ok (.obj [("title", .str "A"), ("content", .str "B")])

/-- A POST request that declares plain text. -/
def postPlainText : Request where
  Method := "POST"
  Header := ⟨[("Content-Type", ["text/plain"])]⟩
  Body := .ok (.obj [("title", .str "A"), ("content", .str "B")])

/-! ## Properties stated in the words of the specification -/

/-- The status decision of the upload handler as the specification lists it:
the first check that fails decides. -/
def uploadStatus (env : Env) (r : Request) : Nat :=
  if r.Method ≠ "POST" then 405
  else if r.Header.Get "Content-Type" ≠ "application/json" then 415
  else
    match decodeDocument r.Body with
    | .error _ => 400
    | .ok doc =>
      if doc.Title = [] ∨ doc.Content = [] then 400
      else
        match env.Connect "mongodb://localhost:27017" with
        | .error _ => 500
        | .ok _ =>
          match env.InsertOne "mydb" "documents" doc with
          | .error _ => 500
          | .ok _ => 200

/-- The member of a JSON object under a name: the object has a member with
that name and that value, and no later member has the same name. -/
def HasMember (fields : List (String × JSON)) (key : String) (v : JSON) : Prop :=
  ∃ pre post, fields = pre ++ (key, v) :: post ∧ ∀ kv ∈ post, kv.1 ≠ key

/-- A number somewhere in a JSON value, at any depth, does not fit a float64. -/
inductive Overflows : JSON → Prop
  | num (lit : String) (m : Nat) (e : Int) :
      overflowsFloat64 m e = true → Overflows (.num lit m e)
  | arr (items : List JSON) (v : JSON) : v ∈ items → Overflows v → Overflows (.arr items)
  | obj (fields : List (String × JSON)) (k : String) (v : JSON) :
      (k, v) ∈ fields → Overflows v → Overflows (.obj fields)

/-- The five failure conditions of the summarize handler that the
specification lists: the connection fails; the query fails (which includes an
empty collection); the outbound call fails; the response body is not a JSON
object; or the object has no string under `response`. -/
def SummaryFailureListed (env : Env) : Prop :=
  (∃ err, env.Connect mongoDBURL = .error err) ∨
  (∃ err, env.FindOne "mydb" "documents" = .error err) ∨
  (∃ doc err, env.FindOne "mydb" "documents" = .ok doc ∧
    env.Post "http://localhost:11434/api/generate" "application/json" (ollamaReq doc) =
      .error err) ∨
  (∃ doc body, env.FindOne "mydb" "documents" = .ok doc ∧
    env.Post "http://localhost:11434/api/generate" "application/json" (ollamaReq doc) =
      .ok body ∧ ∀ fields, body ≠ .ok (.obj fields)) ∨
  (∃ doc fields, env.FindOne "mydb" "documents" = .ok doc ∧
    env.Post "http://localhost:11434/api/generate" "application/json" (ollamaReq doc) =
      .ok (.ok (.obj fields)) ∧ ∀ s, ¬ HasMember fields "response" (.str s))

/-- The listed failure conditions and the one they leave out: the response
body is a JSON object in which a number does not fit a float64. -/
def SummaryFailure (env : Env) : Prop :=
  SummaryFailureListed env ∨
  (∃ doc fields, env.FindOne "mydb" "documents" = .ok doc ∧
    env.Post "http://localhost:11434/api/generate" "application/json" (ollamaReq doc) =
      .ok (.ok (.obj fields)) ∧ Overflows (.obj fields))

/-- The store connection is released properly in a trace: there is exactly
one disconnect and it is the last call on the store. -/
def DisconnectedOnceLast (t : List Event) : Prop :=
  t.countP Event.isDisconnect = 1 ∧
    ((t.filter Event.isStoreOp).getLast?).map Event.isDisconnect = some true

/-- The response body is released properly in a trace: there is exactly one
close and it comes after the outbound call. -/
def ClosedOnceAfterPost (t : List Event) : Prop :=
  t.countP Event.isCloseBody = 1 ∧
    ((t.filter (fun e => e.isPost || e.isCloseBody)).getLast?).map Event.isCloseBody = some true

/-! ## Supporting lemmas: UTF-8 -/

theorem char_valid (c : Char) : c.toNat < 0xD800 ∨ (0xDFFF < c.toNat ∧ c.toNat < 0x110000) := by
  have h := c.valid
  unfold UInt32.isValidChar Nat.isValidChar at h
  exact h

theorem toValidUTF8Loop_fuel (f1 : Nat) : ∀ (f2 : Nat) (p : List Nat),
    p.length ≤ f1 → p.length ≤ f2 → toValidUTF8Loop f1 p = toValidUTF8Loop f2 p := by
  induction f1 with
  | zero =>
    intro f2 p h1 _
    have hp : p = [] := List.eq_nil_of_length_eq_zero (Nat.le_zero.mp h1)
    subst hp
    cases f2 <;> rfl
  | succ n ih =>
    intro f2 p h1 h2
    cases p with
    | nil => cases f2 <;> rfl
    | cons p0 t0 =>
      cases f2 with
      | zero => simp at h2
      | succ m =>
        simp only [toValidUTF8Loop]
        congr 1
        apply ih
        · simp only [List.length_drop, List.length_cons] at h1 ⊢; omega
        · simp only [List.length_drop, List.length_cons] at h2 ⊢; omega

theorem DecodeRune_encodeRune (n : Nat) (rest : List Nat)
    (hv : n < 0xD800 ∨ (0xDFFF < n ∧ n < 0x110000)) :
    DecodeRune (encodeRune n ++ rest) = (n, (encodeRune n).length) := by
  unfold encodeRune
  by_cases h1 : n < 0x80
  · simp [DecodeRune, h1]
  · rw [if_neg h1]
    by_cases h2 : n < 0x800
    · rw [if_pos h2]
      have g1 : ¬ (0xC0 + n / 64 < 0x80) := by omega
      have g2 : ¬ (0xC0 + n / 64 < 0xC2 ∨ 0xF4 < 0xC0 + n / 64) := by omega
      have g3 : 0xC0 + n / 64 < 0xE0 := by omega
      have g4 : ¬ (0xC0 + n / 64 = 0xE0) := by omega
      have g5 : ¬ (0xC0 + n / 64 = 0xF0) := by omega
      have g6 : ¬ (0xC0 + n / 64 = 0xED) := by omega
      have g7 : ¬ (0xC0 + n / 64 = 0xF4) := by omega
      have g8 : ¬ (0x80 + n % 64 < 0x80 ∨ 0xBF < 0x80 + n % 64) := by omega
      have e : (0xC0 + n / 64) % 32 * 64 + (0x80 + n % 64) % 64 = n := by omega
      simp only [List.cons_append, List.nil_append, DecodeRune, List.length_cons,
        List.length_nil, if_neg g1, if_neg g2, if_pos g3, if_neg g4, if_neg g5, if_neg g6,
        if_neg g7, if_neg g8, e]
      rw [if_neg (by omega), if_pos (Nat.le_refl 2)]
    · rw [if_neg h2]
      by_cases h3 : n < 0x10000
      · rw [if_pos h3]
        have g1 : ¬ (0xE0 + n / 4096 < 0x80) := by omega
        have g2 : ¬ (0xE0 + n / 4096 < 0xC2 ∨ 0xF4 < 0xE0 + n / 4096) := by omega
        have g3 : ¬ (0xE0 + n / 4096 < 0xE0) := by omega
        have g4 : 0xE0 + n / 4096 < 0xF0 := by omega
        have g5 : ¬ (0xE0 + n / 4096 = 0xF0) := by omega
        have g7 : ¬ (0xE0 + n / 4096 = 0xF4) := by omega
        have g8 : ¬ (0x80 + n / 64 % 64 <
              (if 0xE0 + n / 4096 = 0xE0 then 0xA0 else 0x80) ∨
            (if 0xE0 + n / 4096 = 0xED then 0x9F else 0xBF) < 0x80 + n / 64 % 64) := by
          split_ifs <;> omega
        have g9 : ¬ (0x80 + n % 64 < 0x80 ∨ 0xBF < 0x80 + n % 64) := by omega
        have e : (0xE0 + n / 4096) % 16 * 4096 + (0x80 + n / 64 % 64) % 64 * 64 +
            (0x80 + n % 64) % 64 = n := by omega
        simp only [List.cons_append, List.nil_append, DecodeRune, List.length_cons,
          List.length_nil, if_neg g1, if_neg g2, if_neg g3, if_pos g4, if_neg g5,
          if_neg g7, if_neg g8, if_neg g9, e]
        rw [if_neg (by omega), if_neg (by omega), if_pos (Nat.le_refl 3)]
      · rw [if_neg h3]
        have g1 : ¬ (0xF0 + n / 262144 < 0x80) := by omega
        have g2 : ¬ (0xF0 + n / 262144 < 0xC2 ∨ 0xF4 < 0xF0 + n / 262144) := by omega
        have g3 : ¬ (0xF0 + n / 262144 < 0xE0) := by omega
        have g4 : ¬ (0xF0 + n / 262144 < 0xF0) := by omega
        have g5 : ¬ (0xF0 + n / 262144 = 0xE0) := by omega
        have g6 : ¬ (0xF0 + n / 262144 = 0xED) := by omega
        have g8 : ¬ (0x80 + n / 4096 % 64 <
              (if 0xF0 + n / 262144 = 0xF0 then 0x90 else 0x80) ∨
            (if 0xF0 + n / 262144 = 0xF4 then 0x8F else 0xBF) < 0x80 + n / 4096 % 64) := by
          split_ifs <;> omega
        have g9 : ¬ (0x80 + n / 64 % 64 < 0x80 ∨ 0xBF < 0x80 + n / 64 % 64) := by omega
        have g10 : ¬ (0x80 + n % 64 < 0x80 ∨ 0xBF < 0x80 + n % 64) := by omega
        have e : (0xF0 + n / 262144) % 8 * 262144 + (0x80 + n / 4096 % 64) % 64 * 4096 +
            (0x80 + n / 64 % 64) % 64 * 64 + (0x80 + n % 64) % 64 = n := by omega
        simp only [List.cons_append, List.nil_append, DecodeRune, List.length_cons,
          List.length_nil, if_neg g1, if_neg g2, if_neg g3, if_neg g4, if_neg g5,
          if_neg g6, if_neg g8, if_neg g9, if_neg g10, e]
        rw [if_neg (by omega), if_neg (by omega), if_neg (by omega)]

theorem encodeRune_length_pos (n : Nat) : 1 ≤ (encodeRune n).length := by
  unfold encodeRune
  split_ifs <;> simp

theorem toValidUTF8Loop_encodeRune (c : Char) (rest : List Nat) :
    toValidUTF8Loop (encodeRune c.toNat ++ rest).length (encodeRune c.toNat ++ rest) =
      c :: toValidUTF8Loop rest.length rest := by
  have hd := DecodeRune_encodeRune c.toNat rest (char_valid c)
  have hl := encodeRune_length_pos c.toNat
  obtain ⟨p0, t0, hp⟩ : ∃ p0 t0, encodeRune c.toNat = p0 :: t0 := by
    cases h : encodeRune c.toNat with
    | nil => rw [h] at hl; simp at hl
    | cons p0 t0 => exact ⟨p0, t0, rfl⟩
  rw [hp, List.cons_append, List.length_cons] at hd
  simp only [hp, List.cons_append, List.length_cons, toValidUTF8Loop, hd,
    Char.ofNat_toNat, Nat.add_sub_cancel, List.drop_left]
  congr 1
  exact toValidUTF8Loop_fuel _ _ _ (by simp) (Nat.le_refl _)

theorem toValidUTF8Loop_encode (s : List Char) (rest : List Nat) :
    toValidUTF8Loop (s.flatMap (fun c => encodeRune c.toNat) ++ rest).length
        (s.flatMap (fun c => encodeRune c.toNat) ++ rest) =
      s ++ toValidUTF8Loop rest.length rest := by
  induction s with
  | nil => rfl
  | cons c cs ih =>
    rw [List.flatMap_cons, List.append_assoc, toValidUTF8Loop_encodeRune, ih]
    rfl

/-- Marshalling the bytes of a text, followed by more bytes, yields the text
followed by what the other bytes yield: valid UTF-8 passes unchanged. -/
theorem toValidUTF8_encodeUTF8_append (s : String) (rest : GoString) :
    toValidUTF8 (encodeUTF8 s ++ rest) = s ++ toValidUTF8 rest := by
  apply String.ext
  simp only [toValidUTF8, encodeUTF8, String.data_append]
  exact toValidUTF8Loop_encode s.toList rest

/-- Marshalling the bytes of a text yields the text. -/
theorem toValidUTF8_encodeUTF8 (s : String) : toValidUTF8 (encodeUTF8 s) = s := by
  have h := toValidUTF8_encodeUTF8_append s []
  rw [List.append_nil] at h
  rw [h]
  apply String.ext
  simp [toValidUTF8, toValidUTF8Loop]

/-! ## Supporting lemmas: the JSON library -/

mutual
theorem rangeError_none (v : JSON) : v.rangeError = none ↔ ¬ Overflows v := by
  match v with
  | .null => simp only [JSON.rangeError, true_iff]; intro h; cases h
  | .bool b => simp only [JSON.rangeError, true_iff]; intro h; cases h
  | .str s => simp only [JSON.rangeError, true_iff]; intro h; cases h
  | .num lit m e =>
    simp only [JSON.rangeError]
    constructor
    · intro h ho
      cases ho with
      | num _ _ _ hov => simp [hov] at h
    · intro h
      by_cases hov : overflowsFloat64 m e = true
      · exact absurd (Overflows.num lit m e hov) h
      · simp [hov]
  | .arr items =>
    simp only [JSON.rangeError]
    rw [rangeErrorItems_none items]
    constructor
    · intro h ho
      cases ho with
      | arr _ v hm hv => exact h v hm hv
    · intro h v hm hv
      exact h (Overflows.arr items v hm hv)
  | .obj fields =>
    simp only [JSON.rangeError]
    rw [rangeErrorFields_none fields]
    constructor
    · intro h ho
      cases ho with
      | obj _ k v hm hv => exact h (k, v) hm hv
    · intro h kv hm hv
      exact h (Overflows.obj fields kv.1 kv.2 hm hv)
theorem rangeErrorItems_none (items : List JSON) :
    rangeErrorItems items = none ↔ ∀ v ∈ items, ¬ Overflows v := by
  match items with
  | [] => simp [rangeErrorItems]
  | v :: rest =>
    have h1 := rangeError_none v
    have h2 := rangeErrorItems_none rest
    simp only [rangeErrorItems, List.mem_cons, forall_eq_or_imp, ← h1, ← h2]
    cases v.rangeError <;> simp
theorem rangeErrorFields_none (fields : List (String × JSON)) :
    rangeErrorFields fields = none ↔ ∀ kv ∈ fields, ¬ Overflows kv.2 := by
  match fields with
  | [] => simp [rangeErrorFields]
  | (k, v) :: rest =>
    have h1 := rangeError_none v
    have h2 := rangeErrorFields_none rest
    simp only [rangeErrorFields, List.mem_cons, forall_eq_or_imp, ← h1, ← h2]
    cases v.rangeError <;> simp
end

theorem overflows_obj_iff (fields : List (String × JSON)) :
    Overflows (.obj fields) ↔ ∃ lit, rangeErrorFields fields = some lit := by
  have h := rangeError_none (.obj fields)
  simp only [JSON.rangeError] at h
  constructor
  · intro ho
    cases hr : rangeErrorFields fields with
    | none => exact absurd ho (h.mp hr)
    | some lit => exact ⟨lit, rfl⟩
  · rintro ⟨lit, hr⟩
    by_contra hn
    rw [h.mpr hn] at hr
    cases hr

theorem mapIndex_eq_some_iff (fields : List (String × JSON)) (key : String) (v : JSON) :
    mapIndex fields key = some v ↔ HasMember fields key v := by
  unfold mapIndex HasMember
  rw [List.lookup_eq_some_iff]
  constructor
  · rintro ⟨l₁, l₂, hrev, hno⟩
    refine ⟨l₂.reverse, l₁.reverse, ?_, ?_⟩
    · have := congrArg List.reverse hrev
      simpa using this
    · intro kv hkv heq
      have := hno kv (List.mem_reverse.mp hkv)
      simp [heq] at this
  · rintro ⟨pre, post, hf, hno⟩
    refine ⟨post.reverse, pre.reverse, ?_, ?_⟩
    · simp [hf]
    · intro p hp
      have := hno p (List.mem_reverse.mp hp)
      exact bne_iff_ne.mpr (fun h => this h.symm)

theorem assertString_eq_some_iff (fields : List (String × JSON)) (s : String) :
    assertString (mapIndex fields "response") = some s ↔
      HasMember fields "response" (.str s) := by
  rw [← mapIndex_eq_some_iff]
  unfold assertString
  split
  · rename_i t heq
    rw [heq]
    simp
  · rename_i hne
    constructor
    · intro h; cases h
    · intro h; exact absurd h (hne s)

theorem Sprintf_prompt (t c : GoString) :
    Sprintf (encodeUTF8 "请总结以下内容：\n标题：%s\n内容：%s") [t, c] =
      encodeUTF8 "请总结以下内容：\n标题：" ++ t ++ (encodeUTF8 "\n内容：" ++ c) := by
  simp [Sprintf, encodeUTF8, encodeRune]

/-- The payload in closed form. -/
theorem ollamaReq_eq (doc : Document) :
    ollamaReq doc = .obj [("model", .str "deepseek-r1:8b"),
      ("prompt", .str (toValidUTF8 (encodeUTF8 "请总结以下内容：\n标题：" ++ doc.Title ++
        (encodeUTF8 "\n内容：" ++ doc.Content)))),
      ("stream", .bool false)] := by
  simp only [ollamaReq, Sprintf_prompt, modelName]

theorem storeField_title_of_ne (st : DecodeState) (key : String) (v : JSON)
    (h : foldName key ≠ "title".toList) : (storeField st key v).doc.Title = st.doc.Title := by
  unfold storeField
  rw [if_neg h]
  split
  · cases v <;> simp [DecodeState.saveError] <;> split <;> rfl
  · rfl

theorem storeField_content_of_ne (st : DecodeState) (key : String) (v : JSON)
    (h : foldName key ≠ "content".toList) :
    (storeField st key v).doc.Content = st.doc.Content := by
  unfold storeField
  by_cases h1 : foldName key = "title".toList
  · rw [if_pos h1]
    cases v <;> simp [DecodeState.saveError] <;> split <;> rfl
  · rw [if_neg h1, if_neg h]

theorem foldl_storeField_title (fields : List (String × JSON)) :
    ∀ st : DecodeState, (∀ kv ∈ fields, foldName kv.1 ≠ "title".toList) →
      (fields.foldl (fun st kv => storeField st kv.1 kv.2) st).doc.Title = st.doc.Title := by
  induction fields with
  | nil => intro st _; rfl
  | cons kv rest ih =>
    intro st h
    rw [List.foldl_cons, ih _ (fun x hx => h x (List.mem_cons_of_mem _ hx))]
    exact storeField_title_of_ne st kv.1 kv.2 (h kv (List.mem_cons_self _ _))

theorem foldl_storeField_content (fields : List (String × JSON)) :
    ∀ st : DecodeState, (∀ kv ∈ fields, foldName kv.1 ≠ "content".toList) →
      (fields.foldl (fun st kv => storeField st kv.1 kv.2) st).doc.Content = st.doc.Content := by
  induction fields with
  | nil => intro st _; rfl
  | cons kv rest ih =>
    intro st h
    rw [List.foldl_cons, ih _ (fun x hx => h x (List.mem_cons_of_mem _ hx))]
    exact storeField_content_of_ne st kv.1 kv.2 (h kv (List.mem_cons_self _ _))

/-- A JSON object with no member named title (in any letter case) decodes, when
it decodes at all, to a document whose title is empty. -/
theorem decodeDocument_absent_title (fields : List (String × JSON)) (doc : Document)
    (habs : ∀ kv ∈ fields, foldName kv.1 ≠ "title".toList)
    (hdec : decodeDocument (.ok (.obj fields)) = .ok doc) : doc.Title = [] := by
  have key := foldl_storeField_title fields ⟨Document.zero, none⟩ habs
  simp only [decodeDocument] at hdec
  split at hdec
  · cases hdec
  · cases hdec
    exact key

/-- A JSON object with no member named content (in any letter case) decodes,
when it decodes at all, to a document whose content is empty. -/
theorem decodeDocument_absent_content (fields : List (String × JSON)) (doc : Document)
    (habs : ∀ kv ∈ fields, foldName kv.1 ≠ "content".toList)
    (hdec : decodeDocument (.ok (.obj fields)) = .ok doc) : doc.Content = [] := by
  have key := foldl_storeField_content fields ⟨Document.zero, none⟩ habs
  simp only [decodeDocument] at hdec
  split at hdec
  · cases hdec
  · cases hdec
    exact key

/-! ## The upload handler -/

/-- C1: a POST request with Content-Type application/json whose body decodes
to a document with non-empty title and content, against a store whose connect
and insert succeed, gets status 200 and the JSON object with the id the store
returned and the message 文档创建成功; the run inserted exactly one document,
the one decoded from the request. -/
theorem upload_success (env : Env) (r : Request) (doc : Document) (id : String)
    (hm : r.Method = "POST") (hct : r.Header.Get "Content-Type" = "application/json")
    (hdec : decodeDocument r.Body = .ok doc) (ht : doc.Title ≠ []) (hc : doc.Content ≠ [])
    (hconn : env.Connect "mongodb://localhost:27017" = .ok ())
    (hins : env.InsertOne "mydb" "documents" doc = .ok id) :
    (uploadHandler env r).w.StatusCode = 200 ∧
    (uploadHandler env r).w.body =
      [.json (.obj [("id", .str id), ("message", .str "文档创建成功")])] ∧
    (uploadHandler env r).w.header.Get "Content-Type" = "application/json" ∧
    insertedDocs (uploadHandler env r).trace = [doc] := by
  simp only [uploadHandler, hm, hct, hdec, ht, hc, hconn, hins, ne_eq, not_true_eq_false,
    if_false, or_self]
  simp [ResponseWriter.StatusCode, ResponseWriter.Write, ResponseWriter.WriteHeader,
    ResponseWriter.new, insertedDocs, Header.Get, Header.Set, Header.Del]

/-- Witness of C1: the scenario request (title A, content B) on a store where
every call succeeds. -/
theorem upload_success_witness :
    decodeDocument sampleUpload.Body = .ok ⟨encodeUTF8 "A", encodeUTF8 "B"⟩ ∧
    (uploadHandler sampleEnv sampleUpload).w.StatusCode = 200 ∧
    (uploadHandler sampleEnv sampleUpload).w.body =
      [.json (.obj [("id", .str "65f0c0ffee65f0c0ffee0001"), ("message", .str "文档创建成功")])] ∧
    (uploadHandler sampleEnv sampleUpload).w.header.Get "Content-Type" = "application/json" ∧
    insertedDocs (uploadHandler sampleEnv sampleUpload).trace = [⟨encodeUTF8 "A", encodeUTF8 "B"⟩] :=
  ⟨rfl, upload_success sampleEnv sampleUpload ⟨encodeUTF8 "A", encodeUTF8 "B"⟩ "65f0c0ffee65f0c0ffee0001"
    rfl rfl rfl (by decide) (by decide) rfl rfl⟩

/-- Counterexample to C2 as stated: a GET request whose body has an empty
title gets 405, not 400. -/
theorem empty_title_get_not_400 :
    decodeDocument getEmptyTitle.Body = .ok ⟨[], encodeUTF8 "x"⟩ ∧
    (uploadHandler sampleEnv getEmptyTitle).w.StatusCode = 405 ∧
    (uploadHandler sampleEnv getEmptyTitle).w.StatusCode ≠ 400 :=
  ⟨rfl, by decide, by decide⟩

/-- C2 (amended): a request whose body decodes to a document with an empty
title or an empty content makes the upload handler call nothing at all, so it
inserts nothing; it gets status 400 when its method is POST and its
Content-Type is application/json (an earlier check answers otherwise). -/
theorem upload_empty_field (env : Env) (r : Request) (doc : Document)
    (hdec : decodeDocument r.Body = .ok doc) (hempty : doc.Title = [] ∨ doc.Content = []) :
    (r.Method = "POST" → r.Header.Get "Content-Type" = "application/json" →
      (uploadHandler env r).w.StatusCode = 400) ∧
    (uploadHandler env r).trace = [] ∧
    insertedDocs (uploadHandler env r).trace = [] := by
  by_cases hm : r.Method = "POST"
  · by_cases hct : r.Header.Get "Content-Type" = "application/json"
    · simp [uploadHandler, hm, hct, hdec, hempty, ResponseWriter.StatusCode, Error,
        ResponseWriter.Write, ResponseWriter.WriteHeader, ResponseWriter.new, insertedDocs]
    · simp [uploadHandler, hm, hct, insertedDocs]
  · simp [uploadHandler, hm, insertedDocs]

/-- Witness of C2 (amended): a POST body without a title decodes to an empty
title and gets 400. -/
theorem upload_empty_field_witness :
    decodeDocument postNoTitle.Body = .ok ⟨[], encodeUTF8 "x"⟩ ∧
    (uploadHandler sampleEnv postNoTitle).w.StatusCode = 400 ∧
    (uploadHandler sampleEnv postNoTitle).trace = [] ∧
    insertedDocs (uploadHandler sampleEnv postNoTitle).trace = [] :=
  ⟨rfl, (upload_empty_field sampleEnv postNoTitle ⟨[], encodeUTF8 "x"⟩ rfl (Or.inl rfl)).1 rfl rfl,
    (upload_empty_field sampleEnv postNoTitle ⟨[], encodeUTF8 "x"⟩ rfl (Or.inl rfl)).2⟩

/-- C3: a request whose method is not POST gets status 405 and the run calls
nothing: no connect, no insert, no disconnect. -/
theorem upload_wrong_method (env : Env) (r : Request) (hm : r.Method ≠ "POST") :
    (uploadHandler env r).w.StatusCode = 405 ∧
    (uploadHandler env r).trace = [] ∧
    (uploadHandler env r).trace.any Event.isStoreOp = false := by
  simp [uploadHandler, hm, ResponseWriter.StatusCode, Error,
    ResponseWriter.Write, ResponseWriter.WriteHeader, ResponseWriter.new]

/-- Witness of C3: a GET request. -/
theorem upload_wrong_method_witness :
    getPlainText.Method ≠ "POST" ∧
    (uploadHandler sampleEnv getPlainText).w.StatusCode = 405 ∧
    (uploadHandler sampleEnv getPlainText).trace = [] ∧
    (uploadHandler sampleEnv getPlainText).trace.any Event.isStoreOp = false :=
  ⟨by decide, upload_wrong_method sampleEnv getPlainText (by decide)⟩

/-- Counterexample to C4 as stated: a GET request that declares text/plain
gets 405, not 415. -/
theorem plain_text_get_not_415 :
    getPlainText.Header.Get "Content-Type" ≠ "application/json" ∧
    (uploadHandler sampleEnv getPlainText).w.StatusCode = 405 ∧
    (uploadHandler sampleEnv getPlainText).w.StatusCode ≠ 415 :=
  ⟨by decide, by decide, by decide⟩

/-- C4 (amended): a POST request whose Content-Type header is anything other
than application/json gets status 415. -/
theorem upload_wrong_content_type (env : Env) (r : Request)
    (hm : r.Method = "POST") (hct : r.Header.Get "Content-Type" ≠ "application/json") :
    (uploadHandler env r).w.StatusCode = 415 := by
  simp [uploadHandler, hm, hct, ResponseWriter.StatusCode, Error,
    ResponseWriter.Write, ResponseWriter.WriteHeader, ResponseWriter.new]

/-- Witness of C4 (amended): a POST request that declares text/plain. -/
theorem upload_wrong_content_type_witness :
    postPlainText.Header.Get "Content-Type" ≠ "application/json" ∧
    (uploadHandler sampleEnv postPlainText).w.StatusCode = 415 :=
  ⟨by decide, upload_wrong_content_type sampleEnv postPlainText rfl (by decide)⟩

/-- C7: every document the upload handler inserts has a non-empty title and a
non-empty content, whatever the request and the store do. -/
theorem upload_inserts_nonempty (env : Env) (r : Request) (doc : Document)
    (h : doc ∈ insertedDocs (uploadHandler env r).trace) :
    doc.Title ≠ [] ∧ doc.Content ≠ [] := by
  by_cases h1 : r.Method = "POST"
  · by_cases h2 : r.Header.Get "Content-Type" = "application/json"
    · cases hd : decodeDocument r.Body with
      | error err => simp [uploadHandler, h1, h2, hd, insertedDocs] at h
      | ok d =>
        by_cases he : d.Title = [] ∨ d.Content = []
        · simp [uploadHandler, h1, h2, hd, he, insertedDocs] at h
        · cases hc : env.Connect "mongodb://localhost:27017" with
          | error err => simp [uploadHandler, h1, h2, hd, he, hc, insertedDocs] at h
          | ok u =>
            cases hi : env.InsertOne "mydb" "documents" d with
            | error err =>
              simp [uploadHandler, h1, h2, hd, he, hc, hi, insertedDocs] at h
              subst h
              exact not_or.mp he
            | ok id =>
              simp [uploadHandler, h1, h2, hd, he, hc, hi, insertedDocs] at h
              subst h
              exact not_or.mp he
    · simp [uploadHandler, h1, h2, insertedDocs] at h
  · simp [uploadHandler, h1, insertedDocs] at h

/-- Witness of C7: the scenario request inserts the document A/B. -/
theorem upload_inserts_nonempty_witness :
    (⟨encodeUTF8 "A", encodeUTF8 "B"⟩ : Document) ∈ insertedDocs (uploadHandler sampleEnv sampleUpload).trace ∧
    (⟨encodeUTF8 "A", encodeUTF8 "B"⟩ : Document).Title ≠ [] ∧ (⟨encodeUTF8 "A", encodeUTF8 "B"⟩ : Document).Content ≠ [] :=
  ⟨by decide, upload_inserts_nonempty sampleEnv sampleUpload ⟨encodeUTF8 "A", encodeUTF8 "B"⟩ (by decide)⟩


/-! ## The summarize handler -/

/-- Counterexample to C5 as stated: the store connects and yields a document,
and the response body is the JSON object with response X and a member n that
is the number 1e999; the handler answers 500, not 200 with body X. -/
theorem summary_overflow_not_200 :
    overflowEnv.Connect mongoDBURL = .ok () ∧
    overflowEnv.FindOne "mydb" "documents" = .ok ⟨encodeUTF8 "A", encodeUTF8 "B"⟩ ∧
    overflowEnv.Post "http://localhost:11434/api/generate" "application/json"
      (ollamaReq ⟨encodeUTF8 "A", encodeUTF8 "B"⟩) =
        .ok (.ok (.obj [("response", .str "X"), ("n", .num "1e999" 1 999)])) ∧
    HasMember [("response", .str "X"), ("n", .num "1e999" 1 999)] "response" (.str "X") ∧
    (summaryHandler overflowEnv getPlainText).w.StatusCode = 500 ∧
    (summaryHandler overflowEnv getPlainText).w.StatusCode ≠ 200 :=
  ⟨rfl, rfl, rfl, ⟨[], [("n", .num "1e999" 1 999)], rfl, by simp⟩, by decide, by decide⟩

/-- C5 (amended): when the store connects, the unfiltered find-one yields a
document and the body of the inference response is a JSON object in which
every number fits a float64 and whose response member is the string X, the
summarize handler answers 200 with the body exactly X and the Content-Type
header text/plain; charset=utf-8 (media type text/plain), whatever the
incoming request is. -/
theorem summary_success (env : Env) (r : Request) (doc : Document)
    (fields : List (String × JSON)) (X : String)
    (hconn : env.Connect mongoDBURL = .ok ())
    (hfind : env.FindOne "mydb" "documents" = .ok doc)
    (hpost : env.Post "http://localhost:11434/api/generate" "application/json" (ollamaReq doc) =
      .ok (.ok (.obj fields)))
    (hfit : ¬ Overflows (.obj fields))
    (hresp : HasMember fields "response" (.str X)) :
    (summaryHandler env r).w.StatusCode = 200 ∧
    (summaryHandler env r).w.body = [.text X] ∧
    (summaryHandler env r).w.header.Get "Content-Type" = "text/plain; charset=utf-8" ∧
    ((summaryHandler env r).w.header.Get "Content-Type").toList.takeWhile (fun c => c != ';') =
      "text/plain".toList := by
  have hr : rangeErrorFields fields = none := by
    cases h : rangeErrorFields fields with
    | none => rfl
    | some lit => exact absurd ((overflows_obj_iff fields).mpr ⟨lit, h⟩) hfit
  have hs := (assertString_eq_some_iff fields X).mpr hresp
  simp only [summaryHandler, hconn, hfind, hpost, unmarshalMap, hr, hs]
  simp [ResponseWriter.StatusCode, ResponseWriter.Write, ResponseWriter.WriteHeader,
    ResponseWriter.new, Header.Get, Header.Set, Header.Del]

/-- Witness of C5 (amended): the scenario, with the endpoint answering the way
Ollama does: response is the second member, after model, and a number
follows. -/
theorem summary_success_witness :
    (summaryHandler sampleEnv getPlainText).w.StatusCode = 200 ∧
    (summaryHandler sampleEnv getPlainText).w.body = [.text "Summary of A"] ∧
    (summaryHandler sampleEnv getPlainText).w.header.Get "Content-Type" =
      "text/plain; charset=utf-8" ∧
    ((summaryHandler sampleEnv getPlainText).w.header.Get "Content-Type").toList.takeWhile
      (fun c => c != ';') = "text/plain".toList :=
  summary_success sampleEnv getPlainText ⟨encodeUTF8 "A", encodeUTF8 "B"⟩
    [("model", .str "deepseek-r1:8b"), ("response", .str "Summary of A"),
      ("done", .bool true), ("total_duration", .num "5043500667" 5043500667 0)]
    "Summary of A" rfl rfl rfl
    (by rw [overflows_obj_iff]; simp [rangeErrorFields, JSON.rangeError, overflowsFloat64])
    ⟨[("model", .str "deepseek-r1:8b")],
      [("done", .bool true), ("total_duration", .num "5043500667" 5043500667 0)], rfl,
      by simp⟩

/-- Counterexample to C6 as stated: the response body is a JSON object with
the string X under response and the number 1e999 inside a nested array; none
of the five listed conditions holds and the handler answers 500. -/
theorem summary_nested_overflow_500 :
    ¬ SummaryFailureListed nestedOverflowEnv ∧
    (summaryHandler nestedOverflowEnv getPlainText).w.StatusCode = 500 := by
  refine ⟨?_, by decide⟩
  have hm : HasMember [("response", JSON.str "X"),
      ("meta", .obj [("context", .arr [.num "7" 7 0, .num "1e999" 1 999])])]
      "response" (.str "X") := ⟨[], _, rfl, by simp⟩
  rintro (⟨err, h⟩ | ⟨err, h⟩ | ⟨doc, err, _, h⟩ | ⟨doc, body, _, h, hb⟩ | ⟨doc, fields, _, h, hn⟩)
  · cases h
  · cases h
  · cases h
  · cases h
    exact hb _ rfl
  · cases h
    exact hn "X" hm

/-- C6 (amended): the summarize handler answers 500 exactly when the connection
fails, the find-one fails (an empty collection is such a failure), the
outbound call fails, the response body is not a JSON object, the object has no
string under response, or a number in the object does not fit a float64; in
every other case it answers 200. -/
theorem summary_status (env : Env) (r : Request) :
    ((summaryHandler env r).w.StatusCode = 500 ↔ SummaryFailure env) ∧
    (¬ SummaryFailure env → (summaryHandler env r).w.StatusCode = 200) := by
  cases hc : env.Connect mongoDBURL with
  | error err =>
    simp [summaryHandler, SummaryFailure, SummaryFailureListed, hc, ResponseWriter.StatusCode,
      Error, ResponseWriter.Write, ResponseWriter.WriteHeader, ResponseWriter.new]
  | ok u =>
    cases hf : env.FindOne "mydb" "documents" with
    | error err =>
      simp [summaryHandler, SummaryFailure, SummaryFailureListed, hc, hf,
        ResponseWriter.StatusCode, Error, ResponseWriter.Write, ResponseWriter.WriteHeader,
        ResponseWriter.new]
    | ok doc =>
      cases hp : env.Post "http://localhost:11434/api/generate" "application/json"
          (ollamaReq doc) with
      | error err =>
        simp [summaryHandler, SummaryFailure, SummaryFailureListed, hc, hf, hp,
          ResponseWriter.StatusCode, Error, ResponseWriter.Write, ResponseWriter.WriteHeader,
          ResponseWriter.new]
      | ok body =>
        cases body with
        | error perr =>
          simp [summaryHandler, SummaryFailure, SummaryFailureListed, hc, hf, hp, unmarshalMap,
            ResponseWriter.StatusCode, Error,
            ResponseWriter.Write, ResponseWriter.WriteHeader, ResponseWriter.new]
        | ok v =>
          cases v with
          | obj fields =>
            cases hr : rangeErrorFields fields with
            | some lit =>
              have hov : Overflows (.obj fields) := (overflows_obj_iff fields).mpr ⟨lit, hr⟩
              simp [summaryHandler, SummaryFailure, SummaryFailureListed, hc, hf, hp,
                unmarshalMap, hr, hov, ResponseWriter.StatusCode, Error,
                ResponseWriter.Write, ResponseWriter.WriteHeader, ResponseWriter.new]
            | none =>
              have hov : ¬ Overflows (.obj fields) := by
                intro h
                obtain ⟨lit, hl⟩ := (overflows_obj_iff fields).mp h
                rw [hr] at hl
                cases hl
              cases hs : assertString (mapIndex fields "response") with
              | none =>
                have hne : ∀ s, ¬ HasMember fields "response" (.str s) := by
                  intro s hm
                  rw [(assertString_eq_some_iff fields s).mpr hm] at hs
                  cases hs
                simp [summaryHandler, SummaryFailure, SummaryFailureListed, hc, hf, hp,
                  unmarshalMap, hr, hs, hov, hne, ResponseWriter.StatusCode, Error,
                  ResponseWriter.Write, ResponseWriter.WriteHeader, ResponseWriter.new]
              | some summary =>
                have hm := (assertString_eq_some_iff fields summary).mp hs
                have hex : ∃ s, HasMember fields "response" (.str s) := ⟨summary, hm⟩
                simp [summaryHandler, SummaryFailure, SummaryFailureListed, hc, hf, hp,
                  unmarshalMap, hr, hs, hov, hex, ResponseWriter.StatusCode,
                  ResponseWriter.Write, ResponseWriter.WriteHeader, ResponseWriter.new]
          | null =>
            have hne : ∀ s, ¬ HasMember [] "response" (.str s) := by
              rintro s ⟨pre, post, h, _⟩
              simp at h
            simp [summaryHandler, SummaryFailure, SummaryFailureListed, hc, hf, hp,
              unmarshalMap, assertString, mapIndex, ResponseWriter.StatusCode, Error,
              ResponseWriter.Write, ResponseWriter.WriteHeader, ResponseWriter.new]
          | bool b =>
            simp [summaryHandler, SummaryFailure, SummaryFailureListed, hc, hf, hp,
              unmarshalMap, ResponseWriter.StatusCode, Error,
              ResponseWriter.Write, ResponseWriter.WriteHeader, ResponseWriter.new]
          | num lit m e =>
            simp [summaryHandler, SummaryFailure, SummaryFailureListed, hc, hf, hp,
              unmarshalMap, ResponseWriter.StatusCode, Error,
              ResponseWriter.Write, ResponseWriter.WriteHeader, ResponseWriter.new]
          | str s =>
            simp [summaryHandler, SummaryFailure, SummaryFailureListed, hc, hf, hp,
              unmarshalMap, ResponseWriter.StatusCode, Error,
              ResponseWriter.Write, ResponseWriter.WriteHeader, ResponseWriter.new]
          | arr items =>
            simp [summaryHandler, SummaryFailure, SummaryFailureListed, hc, hf, hp,
              unmarshalMap, ResponseWriter.StatusCode, Error,
              ResponseWriter.Write, ResponseWriter.WriteHeader, ResponseWriter.new]

/-- Witness of C6 (amended): in the scenario no failure condition holds and
the answer is 200; with 1e999 in the response body a failure condition holds
and the answer is 500. -/
theorem summary_status_witness :
    (¬ SummaryFailure sampleEnv ∧ (summaryHandler sampleEnv getPlainText).w.StatusCode = 200) ∧
    (SummaryFailure overflowEnv ∧ (summaryHandler overflowEnv getPlainText).w.StatusCode = 500) :=
  ⟨⟨fun h => absurd ((summary_status sampleEnv getPlainText).1.mpr h) (by decide),
      (summary_status sampleEnv getPlainText).2
        (fun h => absurd ((summary_status sampleEnv getPlainText).1.mpr h) (by decide))⟩,
    ⟨(summary_status overflowEnv getPlainText).1.mp (by decide),
      (summary_status overflowEnv getPlainText).1.mpr
        ((summary_status overflowEnv getPlainText).1.mp (by decide))⟩⟩

/-- Counterexample to C8 as stated: the store holds a document whose title is
the bytes 61 FF 62; the prompt sent is the text with U+FFFD in place of the
byte FF, so its bytes are not the concatenation with the title spliced in. -/
theorem invalid_title_prompt_modified :
    invalidTitleEnv.Connect mongoDBURL = .ok () ∧
    invalidTitleEnv.FindOne "mydb" "documents" = .ok ⟨[0x61, 0xFF, 0x62], encodeUTF8 "B"⟩ ∧
    postedRequests (summaryHandler invalidTitleEnv getPlainText).trace =
      [("http://localhost:11434/api/generate", "application/json",
        .obj [("model", .str "deepseek-r1:8b"),
              ("prompt", .str "请总结以下内容：\n标题：a\uFFFDb\n内容：B"),
              ("stream", .bool false)])] ∧
    encodeUTF8 "请总结以下内容：\n标题：a\uFFFDb\n内容：B" ≠
      encodeUTF8 "请总结以下内容：\n标题：" ++ [0x61, 0xFF, 0x62] ++
        (encodeUTF8 "\n内容：" ++ encodeUTF8 "B") := by
  have h : toValidUTF8 (encodeUTF8 "请总结以下内容：\n标题：" ++ [0x61, 0xFF, 0x62] ++
      (encodeUTF8 "\n内容：" ++ encodeUTF8 "B")) = "请总结以下内容：\n标题：a\uFFFDb\n内容：B" := by
    decide
  refine ⟨rfl, rfl, ?_, by decide⟩
  simp only [summaryHandler, invalidTitleEnv, sampleEnv, unmarshalMap, postedRequests,
    ollamaReq_eq, h]

/-- C8 (amended): for the document the summarize handler reads from the store,
the run sends exactly one request, to the generate endpoint with the JSON
content type, whose payload is the object with exactly the members model
(deepseek-r1:8b), prompt and stream (false); the prompt is the fixed text with
title and content spliced in, read as UTF-8 with every invalid byte replaced by
U+FFFD; when title and content are valid UTF-8 the prompt is exactly the
concatenation, with title and content in it unchanged. -/
theorem summary_payload (env : Env) (r : Request) (doc : Document)
    (hconn : env.Connect mongoDBURL = .ok ())
    (hfind : env.FindOne "mydb" "documents" = .ok doc) :
    postedRequests (summaryHandler env r).trace =
      [("http://localhost:11434/api/generate", "application/json",
        .obj [("model", .str "deepseek-r1:8b"),
              ("prompt", .str (toValidUTF8 (encodeUTF8 "请总结以下内容：\n标题：" ++ doc.Title ++
                (encodeUTF8 "\n内容：" ++ doc.Content)))),
              ("stream", .bool false)])] ∧
    ∀ title content : String, doc.Title = encodeUTF8 title → doc.Content = encodeUTF8 content →
      toValidUTF8 (encodeUTF8 "请总结以下内容：\n标题：" ++ doc.Title ++
          (encodeUTF8 "\n内容：" ++ doc.Content)) =
        "请总结以下内容：\n标题：" ++ title ++ "\n内容：" ++ content ∧
      title.toList <:+: ("请总结以下内容：\n标题：" ++ title ++ "\n内容：" ++ content).toList ∧
      content.toList <:+: ("请总结以下内容：\n标题：" ++ title ++ "\n内容：" ++ content).toList := by
  refine ⟨?_, ?_⟩
  · rw [← ollamaReq_eq]
    cases hp : env.Post "http://localhost:11434/api/generate" "application/json"
        (ollamaReq doc) with
    | error err => simp [summaryHandler, hconn, hfind, hp, postedRequests]
    | ok body =>
      cases hu : unmarshalMap body with
      | error err => simp [summaryHandler, hconn, hfind, hp, hu, postedRequests]
      | ok m =>
        cases hs : assertString (mapIndex m "response") with
        | none => simp [summaryHandler, hconn, hfind, hp, hu, hs, postedRequests]
        | some summary => simp [summaryHandler, hconn, hfind, hp, hu, hs, postedRequests]
  · intro title content ht hc
    refine ⟨?_, ?_, ?_⟩
    · rw [ht, hc, List.append_assoc, toValidUTF8_encodeUTF8_append,
        toValidUTF8_encodeUTF8_append, toValidUTF8_encodeUTF8_append, toValidUTF8_encodeUTF8]
      simp [String.append_assoc]
    · exact ⟨"请总结以下内容：\n标题：".toList, ("\n内容：" ++ content).toList, by
        simp [String.append_assoc]⟩
    · exact ⟨("请总结以下内容：\n标题：" ++ title ++ "\n内容：").toList, [], by simp⟩

/-- Witness of C8 (amended): the store holds the document A/B. -/
theorem summary_payload_witness :
    postedRequests (summaryHandler sampleEnv getPlainText).trace =
      [("http://localhost:11434/api/generate", "application/json",
        .obj [("model", .str "deepseek-r1:8b"),
              ("prompt", .str (toValidUTF8 (encodeUTF8 "请总结以下内容：\n标题：" ++ encodeUTF8 "A" ++
                (encodeUTF8 "\n内容：" ++ encodeUTF8 "B")))),
              ("stream", .bool false)])] ∧
    toValidUTF8 (encodeUTF8 "请总结以下内容：\n标题：" ++ encodeUTF8 "A" ++
        (encodeUTF8 "\n内容：" ++ encodeUTF8 "B")) =
      "请总结以下内容：\n标题：" ++ "A" ++ "\n内容：" ++ "B" :=
  ⟨(summary_payload sampleEnv getPlainText ⟨encodeUTF8 "A", encodeUTF8 "B"⟩ rfl rfl).1,
    ((summary_payload sampleEnv getPlainText ⟨encodeUTF8 "A", encodeUTF8 "B"⟩ rfl rfl).2
      "A" "B" rfl rfl).1⟩

/-! ## Both handlers -/

/-- C9: in both handlers, on every path on which the store connection was
opened, the trace has exactly one disconnect and it is the last call on the
store; in the summarize handler, on every path on which the outbound call
returned a response, the trace has exactly one close of the response body,
after the call.  A trace holds what the handler did before it returned. -/
theorem resources_released (env : Env) (r : Request) :
    ((∃ uri, Event.connect uri ∈ (uploadHandler env r).trace ∧ env.Connect uri = .ok ()) →
      DisconnectedOnceLast (uploadHandler env r).trace) ∧
    ((∃ uri, Event.connect uri ∈ (summaryHandler env r).trace ∧ env.Connect uri = .ok ()) →
      DisconnectedOnceLast (summaryHandler env r).trace) ∧
    ((∃ url ct payload body, Event.post url ct payload ∈ (summaryHandler env r).trace ∧
        env.Post url ct payload = .ok body) →
      ClosedOnceAfterPost (summaryHandler env r).trace) := by
  refine ⟨?_, ?_, ?_⟩
  · rintro ⟨uri, hmem, hok⟩
    by_cases h1 : r.Method = "POST"
    · by_cases h2 : r.Header.Get "Content-Type" = "application/json"
      · cases hd : decodeDocument r.Body with
        | error err => simp [uploadHandler, h1, h2, hd] at hmem
        | ok d =>
          by_cases he : d.Title = [] ∨ d.Content = []
          · simp [uploadHandler, h1, h2, hd, he] at hmem
          · cases hc : env.Connect "mongodb://localhost:27017" with
            | error err =>
              simp [uploadHandler, h1, h2, hd, he, hc] at hmem
              subst hmem
              rw [hc] at hok
              cases hok
            | ok u =>
              cases hi : env.InsertOne "mydb" "documents" d with
              | error err =>
                simp [uploadHandler, h1, h2, hd, he, hc, hi, DisconnectedOnceLast,
                  Event.isDisconnect, Event.isStoreOp]
              | ok id =>
                simp [uploadHandler, h1, h2, hd, he, hc, hi, DisconnectedOnceLast,
                  Event.isDisconnect, Event.isStoreOp]
      · simp [uploadHandler, h1, h2] at hmem
    · simp [uploadHandler, h1] at hmem
  · rintro ⟨uri, hmem, hok⟩
    cases hc : env.Connect mongoDBURL with
    | error err =>
      simp [summaryHandler, hc] at hmem
      subst hmem
      rw [hc] at hok
      cases hok
    | ok u =>
      cases hf : env.FindOne "mydb" "documents" with
      | error err =>
        simp [summaryHandler, hc, hf, DisconnectedOnceLast, Event.isDisconnect,
          Event.isStoreOp]
      | ok doc =>
        cases hp : env.Post "http://localhost:11434/api/generate" "application/json"
            (ollamaReq doc) with
        | error err =>
          simp [summaryHandler, hc, hf, hp, DisconnectedOnceLast, Event.isDisconnect,
            Event.isStoreOp]
        | ok body =>
          cases hu : unmarshalMap body with
          | error err =>
            simp [summaryHandler, hc, hf, hp, hu, DisconnectedOnceLast, Event.isDisconnect,
              Event.isStoreOp]
          | ok m =>
            cases hs : assertString (mapIndex m "response") with
            | none =>
              simp [summaryHandler, hc, hf, hp, hu, hs, DisconnectedOnceLast,
                Event.isDisconnect, Event.isStoreOp]
            | some summary =>
              simp [summaryHandler, hc, hf, hp, hu, hs, DisconnectedOnceLast,
                Event.isDisconnect, Event.isStoreOp]
  · rintro ⟨url, ct, payload, body, hmem, hok⟩
    cases hc : env.Connect mongoDBURL with
    | error err => simp [summaryHandler, hc] at hmem
    | ok u =>
      cases hf : env.FindOne "mydb" "documents" with
      | error err => simp [summaryHandler, hc, hf] at hmem
      | ok doc =>
        cases hp : env.Post "http://localhost:11434/api/generate" "application/json"
            (ollamaReq doc) with
        | error err =>
          simp [summaryHandler, hc, hf, hp] at hmem
          obtain ⟨h1, h2, h3⟩ := hmem
          subst h1 h2 h3
          rw [hp] at hok
          cases hok
        | ok body =>
          cases hu : unmarshalMap body with
          | error err =>
            simp [summaryHandler, hc, hf, hp, hu, ClosedOnceAfterPost, Event.isCloseBody,
              Event.isPost]
          | ok m =>
            cases hs : assertString (mapIndex m "response") with
            | none =>
              simp [summaryHandler, hc, hf, hp, hu, hs, ClosedOnceAfterPost,
                Event.isCloseBody, Event.isPost]
            | some summary =>
              simp [summaryHandler, hc, hf, hp, hu, hs, ClosedOnceAfterPost,
                Event.isCloseBody, Event.isPost]

/-- Witness of C9: the scenario runs, where the connection opens and the
endpoint answers. -/
theorem resources_released_witness :
    DisconnectedOnceLast (uploadHandler sampleEnv sampleUpload).trace ∧
    DisconnectedOnceLast (summaryHandler sampleEnv sampleUpload).trace ∧
    ClosedOnceAfterPost (summaryHandler sampleEnv sampleUpload).trace :=
  ⟨(resources_released sampleEnv sampleUpload).1
      ⟨"mongodb://localhost:27017", List.Mem.head _, rfl⟩,
    (resources_released sampleEnv sampleUpload).2.1
      ⟨"mongodb://localhost:27017", List.Mem.head _, rfl⟩,
    (resources_released sampleEnv sampleUpload).2.2
      ⟨"http://localhost:11434/api/generate", "application/json",
        ollamaReq ⟨encodeUTF8 "A", encodeUTF8 "B"⟩,
        .ok (.obj [("model", .str "deepseek-r1:8b"), ("response", .str "Summary of A"),
          ("done", .bool true), ("total_duration", .num "5043500667" 5043500667 0)]),
        List.Mem.tail _ (List.Mem.tail _ (List.Mem.head _)), rfl⟩⟩

/-- C10: the status of the upload handler is the decision function of the
specification (405, then 415, then 400, then 500, else 200; first match wins);
the store is called only when the method, content type, decoding and
emptiness checks all pass; a POST that declares application/json;
charset=utf-8 gets 415; a GET with a wrong content type and an empty body gets
405. -/
theorem upload_status_decision (env : Env) (r : Request) :
    (uploadHandler env r).w.StatusCode = uploadStatus env r ∧
    ((uploadHandler env r).trace ≠ [] →
      r.Method = "POST" ∧ r.Header.Get "Content-Type" = "application/json" ∧
      ∃ doc, decodeDocument r.Body = .ok doc ∧ doc.Title ≠ [] ∧ doc.Content ≠ []) ∧
    (∀ body, (uploadHandler env
      ⟨"POST", ⟨[("Content-Type", ["application/json; charset=utf-8"])]⟩, body⟩).w.StatusCode =
        415) ∧
    (uploadHandler env
      ⟨"GET", ⟨[("Content-Type", ["text/plain"])]⟩, .error "EOF"⟩).w.StatusCode = 405 := by
  refine ⟨?_, ?_, ?_, ?_⟩
  · by_cases h1 : r.Method = "POST"
    · by_cases h2 : r.Header.Get "Content-Type" = "application/json"
      · cases hd : decodeDocument r.Body with
        | error err =>
          simp [uploadHandler, uploadStatus, h1, h2, hd, ResponseWriter.StatusCode, Error,
            ResponseWriter.Write, ResponseWriter.WriteHeader, ResponseWriter.new]
        | ok d =>
          by_cases he : d.Title = [] ∨ d.Content = []
          · simp [uploadHandler, uploadStatus, h1, h2, hd, he, ResponseWriter.StatusCode, Error,
              ResponseWriter.Write, ResponseWriter.WriteHeader, ResponseWriter.new]
          · cases hc : env.Connect "mongodb://localhost:27017" with
            | error err =>
              simp [uploadHandler, uploadStatus, h1, h2, hd, he, hc, ResponseWriter.StatusCode,
                Error, ResponseWriter.Write, ResponseWriter.WriteHeader, ResponseWriter.new]
            | ok u =>
              cases hi : env.InsertOne "mydb" "documents" d with
              | error err =>
                simp [uploadHandler, uploadStatus, h1, h2, hd, he, hc, hi,
                  ResponseWriter.StatusCode, Error, ResponseWriter.Write,
                  ResponseWriter.WriteHeader, ResponseWriter.new]
              | ok id =>
                simp [uploadHandler, uploadStatus, h1, h2, hd, he, hc, hi,
                  ResponseWriter.StatusCode, ResponseWriter.Write,
                  ResponseWriter.WriteHeader, ResponseWriter.new]
      · simp [uploadHandler, uploadStatus, h1, h2, ResponseWriter.StatusCode, Error,
          ResponseWriter.Write, ResponseWriter.WriteHeader, ResponseWriter.new]
    · simp [uploadHandler, uploadStatus, h1, ResponseWriter.StatusCode, Error,
        ResponseWriter.Write, ResponseWriter.WriteHeader, ResponseWriter.new]
  · intro hne
    by_cases h1 : r.Method = "POST"
    · by_cases h2 : r.Header.Get "Content-Type" = "application/json"
      · cases hd : decodeDocument r.Body with
        | error err => simp [uploadHandler, h1, h2, hd] at hne
        | ok d =>
          by_cases he : d.Title = [] ∨ d.Content = []
          · simp [uploadHandler, h1, h2, hd, he] at hne
          · exact ⟨h1, h2, d, rfl, (not_or.mp he).1, (not_or.mp he).2⟩
      · simp [uploadHandler, h1, h2] at hne
    · simp [uploadHandler, h1] at hne
  · intro body
    simp [uploadHandler, Header.Get, ResponseWriter.StatusCode, Error,
      ResponseWriter.Write, ResponseWriter.WriteHeader, ResponseWriter.new]
  · simp [uploadHandler, ResponseWriter.StatusCode, Error,
      ResponseWriter.Write, ResponseWriter.WriteHeader, ResponseWriter.new]

end RobinHub
